import Mathlib

/-!
Verification of the torii indexer-subscription fan-out service
(`crates/torii/grpc/src/server/subscriptions/indexer.rs`).

The embedding is a shallow functional model of the Rust source:
* `Felt` values are natural numbers below the STARK prime; `Felt::ZERO` is `0`,
  `Felt::from_str` is `feltFromStr`, `Felt::to_bytes_be` is `feltToBytesBe`.
* the tokio mpsc channel of capacity 1 is a `Channel` record (a `closed` flag
  standing for "the receiving end was dropped", plus the queued messages);
  `send(..).await` during priming (no consumer draining yet) is `prime_send`,
  whose `wouldBlock` outcome models awaiting capacity forever, while
  `send(..).await` during fan-out (a live consumer may drain) is `fanout_send`,
  which models awaiting capacity by letting the consumer pop the front message.
* the `HashMap<usize, IndexerSubscriber>` registry is an association list; the
  random subscription id is passed as a parameter; the sqlx query result is
  passed as an `Except` parameter (the store itself is outside this module).
* `add_subscriber` additionally returns the ordered list of effects it performs
  (priming enqueues, registry insertion) so that temporal claims can be stated.
-/

namespace Indexer

/-- The STARK field prime: `Felt` values are the residues modulo this. -/
def STARK_PRIME : Nat := 2 ^ 251 + 17 * 2 ^ 192 + 1

/-- Value of a hexadecimal digit character, `none` if not a hex digit. -/
def hexDigitVal (c : Char) : Option Nat :=
  if '0' ≤ c ∧ c ≤ '9' then some (c.toNat - 48)
  else if 'a' ≤ c ∧ c ≤ 'f' then some (c.toNat - 87)
  else if 'A' ≤ c ∧ c ≤ 'F' then some (c.toNat - 55)
  else none

/-- Value of a decimal digit character, `none` if not a decimal digit. -/
def decDigitVal (c : Char) : Option Nat :=
  if '0' ≤ c ∧ c ≤ '9' then some (c.toNat - 48) else none

/-- Fold a digit string into a number; `none` on an empty string or any
non-digit character. -/
def parseDigits (dv : Char → Option Nat) (base : Nat) : List Char → Option Nat
  | [] => none
  | cs =>
    cs.foldl
      (fun acc c =>
        match acc, dv c with
        | some a, some d => some (a * base + d)
        | _, _ => none)
      (some 0)

/-- `Felt::from_str`: a `0x`-prefixed string parses as hexadecimal, anything
else as decimal; the value must lie below the STARK prime. -/
def feltFromStr (s : String) : Option Nat :=
  let v? :=
    match s.data with
    | '0' :: 'x' :: rest => parseDigits hexDigitVal 16 rest
    | ds => parseDigits decDigitVal 10 ds
  match v? with
  | some v => if v < STARK_PRIME then some v else none
  | none => none

/-- `Felt::to_bytes_be().to_vec()`: the 32-byte big-endian encoding. -/
def feltToBytesBe (n : Nat) : List Nat :=
  (List.range 32).map (fun i => n / 256 ^ (31 - i) % 256)

/-- `proto::world::SubscribeIndexerResponse`. -/
structure SubscribeIndexerResponse where
  head : Int
  tps : Int
  last_block_timestamp : Int
  contract_address : List Nat
deriving DecidableEq

/-- `ContractCursor` (aliased `ContractUpdated` in the source): a broker event
or a row of the `contracts` table; the address is a hex string. -/
structure ContractUpdated where
  head : Int
  tps : Int
  last_block_timestamp : Int
  contract_address : String
deriving DecidableEq

/-- The tokio mpsc channel of capacity 1: `closed` is true when the receiving
end has been dropped; `queue` holds the buffered messages (length at most 1). -/
structure Channel where
  closed : Bool
  queue : List SubscribeIndexerResponse
deriving DecidableEq

/-- `IndexerSubscriber`: the filter (`Felt::ZERO` = wildcard) and the sender
side of the outbound channel. -/
structure IndexerSubscriber where
  contract_address : Nat
  sender : Channel
deriving DecidableEq

/-- The contents of `IndexerManager.subscribers : HashMap<usize, IndexerSubscriber>`. -/
abbrev Registry := List (Nat × IndexerSubscriber)

/-- `HashMap::get`-style lookup. -/
def registryLookup (reg : Registry) (id : Nat) : Option IndexerSubscriber :=
  (reg.find? (fun p => p.1 == id)).map (fun p => p.2)

/-- `HashMap::insert`: replace the binding if the key is present, add it
otherwise. -/
def registryInsert (reg : Registry) (id : Nat) (s : IndexerSubscriber) : Registry :=
  if reg.any (fun p => p.1 == id) then
    reg.map (fun p => if p.1 == id then (id, s) else p)
  else
    reg ++ [(id, s)]

/-- `IndexerManager::remove_subscriber`: `self.subscribers.write().await.remove(&id)`. -/
def remove_subscriber (reg : Registry) (id : Nat) : Registry :=
  reg.filter (fun p => p.1 != id)

/-- Outcome of one `sender.send(..).await` during priming, when the receiver
has not yet been handed to any consumer: an error if the channel is closed,
otherwise enqueue if there is capacity, otherwise the send awaits capacity
that can never come (`wouldBlock`). -/
inductive PrimeSendResult where
  | sent (ch : Channel)
  | errClosed
  | wouldBlock
deriving DecidableEq

/-- `sender.send(m).await` with no consumer draining (capacity 1). -/
def prime_send (ch : Channel) (m : SubscribeIndexerResponse) : PrimeSendResult :=
  if ch.closed then .errClosed
  else if ch.queue.length < 1 then .sent { ch with queue := ch.queue ++ [m] }
  else .wouldBlock

/-- `sender.send(m).await` during fan-out, when a live consumer holds the
receiver: `none` models `Err` (receiver dropped); on a full channel the send
awaits capacity, i.e. the consumer pops the front message and the new one is
enqueued. -/
def fanout_send (ch : Channel) (m : SubscribeIndexerResponse) : Option Channel :=
  if ch.closed then none
  else if ch.queue.length < 1 then some { ch with queue := ch.queue ++ [m] }
  else some { ch with queue := ch.queue.tail ++ [m] }

/-- The response built in `Service::publish_updates` from the parsed address
`c` and the broker event `u`. -/
def liveResponse (c : Nat) (u : ContractUpdated) : SubscribeIndexerResponse :=
  { head := u.head
    tps := u.tps
    last_block_timestamp := u.last_block_timestamp
    contract_address := feltToBytesBe c }

/-- The priming response built in `add_subscriber` from a store row: the
`contract_address` field is the caller's filter argument, not the row's own
address column. -/
def primingResponse (filter : Nat) (row : ContractUpdated) : SubscribeIndexerResponse :=
  { head := row.head
    tps := row.tps
    last_block_timestamp := row.last_block_timestamp
    contract_address := feltToBytesBe filter }

/-- An observable effect of `add_subscriber`, in program order. -/
inductive AddEvent where
  | sendAttempt (m : SubscribeIndexerResponse)
  | insert (id : Nat)
deriving DecidableEq

/-- How `add_subscriber` ends: returning the receiver (`ok`), propagating the
sqlx error (`storeErr`), or never returning because a priming send awaits
capacity forever (`blocked`). -/
inductive AddOutcome where
  | ok (receiver : Channel)
  | storeErr
  | blocked
deriving DecidableEq

/-- Result of `add_subscriber`: the outcome, the registry afterwards, and the
ordered effects performed. -/
structure AddResult where
  outcome : AddOutcome
  registry : Registry
  events : List AddEvent
deriving DecidableEq

/-- The priming loop `for contract in contracts { let _ = sender.send(..).await; }`:
returns the channel when the loop completes (`none` if some send blocks
forever) together with the list of messages whose send was attempted. A send
error (closed channel) is discarded by `let _ =` and the loop continues. -/
def prime_loop (ch : Channel) :
    List SubscribeIndexerResponse → Option Channel × List SubscribeIndexerResponse
  | [] => (some ch, [])
  | m :: rest =>
    match prime_send ch m with
    | .sent ch2 =>
      let r := prime_loop ch2 rest
      (r.1, m :: r.2)
    | .errClosed =>
      let r := prime_loop ch rest
      (r.1, m :: r.2)
    | .wouldBlock => (none, [m])

/-- `IndexerManager::add_subscriber`. The random id and the result of the sqlx
query are parameters; `receiverDropped` is the state of the freshly created
channel's receiving end while the priming loop runs (`false` in the actual
code path, since the receiver is only returned at the end). -/
def add_subscriber (reg : Registry) (id : Nat) (contract_address : Nat)
    (store : Except Unit (List ContractUpdated)) (receiverDropped : Bool) : AddResult :=
  let ch0 : Channel := { closed := receiverDropped, queue := [] }
  match store with
  | .error _ => { outcome := .storeErr, registry := reg, events := [] }
  | .ok contracts =>
    let msgs := contracts.map (primingResponse contract_address)
    match prime_loop ch0 msgs with
    | (none, attempted) =>
      { outcome := .blocked
        registry := reg
        events := attempted.map AddEvent.sendAttempt }
    | (some ch, attempted) =>
      { outcome := .ok ch
        registry := registryInsert reg id { contract_address := contract_address, sender := ch }
        events := attempted.map AddEvent.sendAttempt ++ [AddEvent.insert id] }

/-- One subscriber's treatment inside `Service::publish_updates`: skip when the
filter is non-wildcard and differs from the parsed address; otherwise send.
Returns the updated binding, the delivered `(id, response)` if any, and the id
pushed onto `closed_stream` if the send failed. -/
def fanoutStep (c : Nat) (u : ContractUpdated) (p : Nat × IndexerSubscriber) :
    (Nat × IndexerSubscriber) × Option (Nat × SubscribeIndexerResponse) × Option Nat :=
  if p.2.contract_address ≠ 0 ∧ p.2.contract_address ≠ c then (p, none, none)
  else
    match fanout_send p.2.sender (liveResponse c u) with
    | some ch => ((p.1, { p.2 with sender := ch }), some (p.1, liveResponse c u), none)
    | none => (p, none, some p.1)

/-- Result of `Service::publish_updates`: whether `Felt::from_str` failed (the
`ParseError` return), the registry afterwards, and the list of `(id, response)`
pairs actually enqueued to subscribers. -/
structure PublishResult where
  parseFailed : Bool
  registry : Registry
  delivered : List (Nat × SubscribeIndexerResponse)
deriving DecidableEq

/-- `Service::publish_updates`: parse the event address, walk the registry
sending to every matching subscriber, then remove every id whose send observed
a closed channel. -/
def publish_updates (reg : Registry) (u : ContractUpdated) : PublishResult :=
  match feltFromStr u.contract_address with
  | none => { parseFailed := true, registry := reg, delivered := [] }
  | some c =>
    let steps := reg.map (fanoutStep c u)
    let closed_stream := steps.filterMap (fun t => t.2.2)
    { parseFailed := false
      registry := closed_stream.foldl remove_subscriber (steps.map (fun t => t.1))
      delivered := steps.filterMap (fun t => t.2.1) }

/-- The `Future::poll` loop of `Service`, sequentialized: each broker event is
handed to `publish_updates`; an error (`ParseError`) is logged and discarded
and the loop continues with the next event. -/
def servicePoll (reg : Registry) (events : List ContractUpdated) : Registry :=
  events.foldl (fun r e => (publish_updates r e).registry) reg

end Indexer

namespace Indexer

/-! ### Basic lemmas about the embedding -/

theorem feltToBytesBe_length (n : Nat) : (feltToBytesBe n).length = 32 := by
  simp [feltToBytesBe]

theorem feltToBytesBe_zero : feltToBytesBe 0 = List.replicate 32 0 := by decide

/-- On a channel whose receiving end is dropped, every priming send errors, the
error is discarded, and the loop runs to completion with the channel unchanged. -/
theorem prime_loop_closed (ms : List SubscribeIndexerResponse) (ch : Channel)
    (h : ch.closed = true) : prime_loop ch ms = (some ch, ms) := by
  induction ms with
  | nil => rfl
  | cons m rest ih => simp [prime_loop, prime_send, h, ih]

/-- Every message attempted by the priming loop comes from its input list. -/
theorem prime_loop_attempted_mem (ms : List SubscribeIndexerResponse) (ch : Channel)
    (m : SubscribeIndexerResponse) (hm : m ∈ (prime_loop ch ms).2) : m ∈ ms := by
  induction ms generalizing ch with
  | nil => simp [prime_loop] at hm
  | cons a rest ih =>
    rcases hps : prime_send ch a with ch2 | _ | _ <;>
      simp only [prime_loop, hps] at hm
    · rcases List.mem_cons.mp hm with h | h
      · exact h ▸ List.mem_cons_self a rest
      · exact List.mem_cons_of_mem a (ih _ h)
    · rcases List.mem_cons.mp hm with h | h
      · exact h ▸ List.mem_cons_self a rest
      · exact List.mem_cons_of_mem a (ih _ h)
    · simp only [List.mem_singleton] at hm
      exact hm ▸ List.mem_cons_self a rest

/-- Two bindings of the same key in a registry with distinct keys are equal. -/
theorem registry_key_unique (reg : Registry) (hnd : (reg.map Prod.fst).Nodup)
    (id : Nat) (s1 s2 : IndexerSubscriber) (h1 : (id, s1) ∈ reg) (h2 : (id, s2) ∈ reg) :
    s1 = s2 := by
  induction reg with
  | nil => cases h1
  | cons p rest ih =>
    rw [List.map_cons, List.nodup_cons] at hnd
    rcases List.mem_cons.mp h1 with h1 | h1 <;> rcases List.mem_cons.mp h2 with h2 | h2
    · rw [← h1] at h2; exact (Prod.mk.injEq _ _ _ _ ▸ h2).2.symm ▸ rfl
    · exact absurd (List.mem_map_of_mem Prod.fst h2) (by rw [← h1] at hnd; exact hnd.1)
    · exact absurd (List.mem_map_of_mem Prod.fst h1) (by rw [← h2] at hnd; exact hnd.1)
    · exact ih hnd.2 h1 h2

theorem registryLookup_remove (reg : Registry) (i j : Nat) :
    registryLookup (remove_subscriber reg i) j =
      if j = i then none else registryLookup reg j := by
  induction reg with
  | nil => simp [remove_subscriber, registryLookup]
  | cons p rest ih =>
    by_cases hpi : p.1 = i
    · have hf : remove_subscriber (p :: rest) i = remove_subscriber rest i := by
        simp [remove_subscriber, List.filter_cons, hpi]
      rw [hf, ih]
      by_cases hji : j = i
      · simp [hji]
      · have hpj : (p.1 == j) = false := beq_eq_false_iff_ne.mpr (fun h => hji (h ▸ hpi))
        simp [hji, registryLookup, List.find?_cons, hpj]
    · have hf : remove_subscriber (p :: rest) i = p :: remove_subscriber rest i := by
        simp [remove_subscriber, List.filter_cons, hpi]
      rw [hf]
      by_cases hpj : p.1 = j
      · have hji : ¬j = i := fun h => hpi (hpj.trans h)
        have hbj : (p.1 == j) = true := beq_iff_eq.mpr hpj
        simp [registryLookup, List.find?_cons, hbj, hji]
      · have hbj : (p.1 == j) = false := beq_eq_false_iff_ne.mpr hpj
        simp only [registryLookup, List.find?_cons, hbj] at ih ⊢
        simpa using ih

/-- Removing an absent id leaves the registry literally unchanged. -/
theorem remove_subscriber_absent (reg : Registry) (id : Nat)
    (h : registryLookup reg id = none) : remove_subscriber reg id = reg := by
  have hfind : reg.find? (fun p => p.1 == id) = none := by
    unfold registryLookup at h
    exact Option.map_eq_none'.mp h
  have hall := List.find?_eq_none.mp hfind
  refine List.filter_eq_self.mpr ?_
  intro p hp
  simpa using hall p hp

theorem registryLookup_isSome_of_mem (reg : Registry) (id : Nat) (s : IndexerSubscriber)
    (h : (id, s) ∈ reg) : registryLookup reg id ≠ none := by
  intro hn
  have := List.find?_eq_none.mp (Option.map_eq_none'.mp hn) (id, s) h
  simp at this

theorem registryLookup_foldl_remove (ids : List Nat) (reg : Registry) (j : Nat) :
    registryLookup (ids.foldl remove_subscriber reg) j =
      if j ∈ ids then none else registryLookup reg j := by
  induction ids generalizing reg with
  | nil => simp
  | cons i ids ih =>
    rw [List.foldl_cons, ih, registryLookup_remove]
    by_cases h1 : j ∈ ids <;> by_cases h2 : j = i <;> simp [h1, h2]

/-! ### Characterization of one subscriber's treatment during fan-out -/

theorem fanoutStep_skip (c : Nat) (u : ContractUpdated) (p : Nat × IndexerSubscriber)
    (h : p.2.contract_address ≠ 0 ∧ p.2.contract_address ≠ c) :
    fanoutStep c u p = (p, none, none) := by
  unfold fanoutStep
  rw [if_pos h]

theorem fanoutStep_closed_eq (c : Nat) (u : ContractUpdated) (p : Nat × IndexerSubscriber)
    (hm : p.2.contract_address = 0 ∨ p.2.contract_address = c)
    (hc : p.2.sender.closed = true) :
    fanoutStep c u p = (p, none, some p.1) := by
  unfold fanoutStep
  rw [if_neg (fun hand => hm.elim hand.1 hand.2)]
  simp [fanout_send, hc]

theorem fanoutStep_open_eq (c : Nat) (u : ContractUpdated) (p : Nat × IndexerSubscriber)
    (hm : p.2.contract_address = 0 ∨ p.2.contract_address = c)
    (hc : p.2.sender.closed = false) :
    ∃ ch, fanout_send p.2.sender (liveResponse c u) = some ch ∧
      fanoutStep c u p =
        ((p.1, { p.2 with sender := ch }), some (p.1, liveResponse c u), none) := by
  have hsend : ∃ ch, fanout_send p.2.sender (liveResponse c u) = some ch := by
    by_cases hq : p.2.sender.queue.length < 1 <;> simp [fanout_send, hc, hq]
  obtain ⟨ch, hch⟩ := hsend
  refine ⟨ch, hch, ?_⟩
  unfold fanoutStep
  rw [if_neg (fun hand => hm.elim hand.1 hand.2), hch]

theorem fanoutStep_key (c : Nat) (u : ContractUpdated) (p : Nat × IndexerSubscriber) :
    (fanoutStep c u p).1.1 = p.1 := by
  unfold fanoutStep
  split
  · rfl
  · cases h : fanout_send p.2.sender (liveResponse c u) <;> simp [h]

theorem fanout_send_some_open (ch0 : Channel) (m : SubscribeIndexerResponse)
    (ch : Channel) (h : fanout_send ch0 m = some ch) : ch0.closed = false := by
  cases hc : ch0.closed
  · rfl
  · simp [fanout_send, hc] at h

theorem fanout_send_none_closed (ch0 : Channel) (m : SubscribeIndexerResponse)
    (h : fanout_send ch0 m = none) : ch0.closed = true := by
  cases hc : ch0.closed
  · by_cases hq : ch0.queue.length < 1 <;> simp [fanout_send, hc, hq] at h
  · rfl

theorem fanoutStep_delivered_inv (c : Nat) (u : ContractUpdated) (p : Nat × IndexerSubscriber)
    (i : Nat) (r : SubscribeIndexerResponse) (h : (fanoutStep c u p).2.1 = some (i, r)) :
    i = p.1 ∧ r = liveResponse c u ∧
      (p.2.contract_address = 0 ∨ p.2.contract_address = c) ∧
      p.2.sender.closed = false := by
  unfold fanoutStep at h
  by_cases hif : p.2.contract_address ≠ 0 ∧ p.2.contract_address ≠ c
  · rw [if_pos hif] at h
    simp at h
  · rw [if_neg hif] at h
    have hm : p.2.contract_address = 0 ∨ p.2.contract_address = c := by tauto
    cases hsend : fanout_send p.2.sender (liveResponse c u) with
    | none => rw [hsend] at h; simp at h
    | some ch =>
      rw [hsend] at h
      simp only [Option.some.injEq, Prod.mk.injEq] at h
      exact ⟨h.1.symm, h.2.symm, hm, fanout_send_some_open _ _ _ hsend⟩

theorem fanoutStep_removed_inv (c : Nat) (u : ContractUpdated) (p : Nat × IndexerSubscriber)
    (i : Nat) (h : (fanoutStep c u p).2.2 = some i) :
    i = p.1 ∧ (p.2.contract_address = 0 ∨ p.2.contract_address = c) ∧
      p.2.sender.closed = true := by
  unfold fanoutStep at h
  by_cases hif : p.2.contract_address ≠ 0 ∧ p.2.contract_address ≠ c
  · rw [if_pos hif] at h
    simp at h
  · rw [if_neg hif] at h
    have hm : p.2.contract_address = 0 ∨ p.2.contract_address = c := by tauto
    cases hsend : fanout_send p.2.sender (liveResponse c u) with
    | none =>
      rw [hsend] at h
      simp only [Option.some.injEq] at h
      exact ⟨h.symm, hm, fanout_send_none_closed _ _ hsend⟩
    | some ch => rw [hsend] at h; simp at h

theorem publish_updates_parse_ok (reg : Registry) (u : ContractUpdated) (c : Nat)
    (hparse : feltFromStr u.contract_address = some c) :
    publish_updates reg u =
      { parseFailed := false
        registry := ((reg.map (fanoutStep c u)).filterMap (fun t => t.2.2)).foldl
            remove_subscriber ((reg.map (fanoutStep c u)).map (fun t => t.1))
        delivered := (reg.map (fanoutStep c u)).filterMap (fun t => t.2.1) } := by
  simp only [publish_updates, hparse]

/-- Every message carried by a `sendAttempt` event of `add_subscriber` is one
of the priming responses computed from the store rows. -/
theorem add_subscriber_sendAttempt_mem (reg : Registry) (id filter : Nat)
    (rows : List ContractUpdated) (rd : Bool) (m : SubscribeIndexerResponse)
    (h : AddEvent.sendAttempt m ∈ (add_subscriber reg id filter (.ok rows) rd).events) :
    m ∈ rows.map (primingResponse filter) := by
  rcases hpl : prime_loop { closed := rd, queue := [] } (rows.map (primingResponse filter))
    with ⟨o, att⟩
  have hatt : ∀ x ∈ att, x ∈ rows.map (primingResponse filter) := by
    intro x hx
    exact prime_loop_attempted_mem _ _ x (by rw [hpl]; exact hx)
  simp only [add_subscriber, hpl] at h
  cases o with
  | none =>
    simp only [List.mem_map] at h
    obtain ⟨x, hx, hxe⟩ := h
    obtain rfl : x = m := by injection hxe
    exact hatt _ hx
  | some ch =>
    rcases List.mem_append.mp h with h | h
    · simp only [List.mem_map] at h
      obtain ⟨x, hx, hxe⟩ := h
      obtain rfl : x = m := by injection hxe
      exact hatt _ hx
    · simp at h

/-! ### Claim theorems -/

/-- C3: every priming message emitted by `add_subscriber` carries as its
`contract_address` the 32-byte big-endian encoding of the caller's filter (not
the record's own address); with `filter = 0` it is 32 zero bytes. -/
theorem claim_C3_priming_address_is_filter (reg : Registry) (id filter : Nat)
    (rows : List ContractUpdated) (rd : Bool) (m : SubscribeIndexerResponse)
    (h : AddEvent.sendAttempt m ∈ (add_subscriber reg id filter (.ok rows) rd).events) :
    m.contract_address = feltToBytesBe filter ∧
      (filter = 0 → m.contract_address = List.replicate 32 0) := by
  have hm := add_subscriber_sendAttempt_mem reg id filter rows rd m h
  simp only [List.mem_map] at hm
  obtain ⟨row, _, rfl⟩ := hm
  refine ⟨rfl, ?_⟩
  intro h0
  rw [show (primingResponse filter row).contract_address = feltToBytesBe filter from rfl, h0]
  exact feltToBytesBe_zero

theorem claim_C3_witness :
    (primingResponse 0
          { head := 7, tps := 8, last_block_timestamp := 9,
            contract_address := "0x9" }).contract_address = feltToBytesBe 0 ∧
      ((0 : Nat) = 0 →
        (primingResponse 0
            { head := 7, tps := 8, last_block_timestamp := 9,
              contract_address := "0x9" }).contract_address = List.replicate 32 0) :=
  claim_C3_priming_address_is_filter [] 1 0
    [{ head := 7, tps := 8, last_block_timestamp := 9, contract_address := "0x9" }] false
    (primingResponse 0
      { head := 7, tps := 8, last_block_timestamp := 9, contract_address := "0x9" })
    (by decide)

/-- C4: in the effect trace of `add_subscriber`, every priming enqueue occurs
strictly before the registry insertion. -/
theorem claim_C4_priming_before_insert (reg : Registry) (id filter : Nat)
    (store : Except Unit (List ContractUpdated)) (rd : Bool) (i j : Nat)
    (m : SubscribeIndexerResponse) (n : Nat)
    (hi : (add_subscriber reg id filter store rd).events[i]? = some (AddEvent.sendAttempt m))
    (hj : (add_subscriber reg id filter store rd).events[j]? = some (AddEvent.insert n)) :
    i < j := by
  cases store with
  | error e => simp [add_subscriber] at hi
  | ok rows =>
    rcases hpl : prime_loop { closed := rd, queue := [] } (rows.map (primingResponse filter))
      with ⟨o, att⟩
    simp only [add_subscriber, hpl] at hi hj
    cases o with
    | none =>
      rw [List.getElem?_map] at hj
      cases hx : att[j]? with
      | none => rw [hx] at hj; simp at hj
      | some x => rw [hx] at hj; simp at hj
    | some ch =>
      have hjL : (att.map AddEvent.sendAttempt).length ≤ j := by
        by_contra hlt
        push_neg at hlt
        rw [List.getElem?_append, if_pos hlt, List.getElem?_map] at hj
        cases hx : att[j]? with
        | none => rw [hx] at hj; simp at hj
        | some x => rw [hx] at hj; simp at hj
      have hiL : i < (att.map AddEvent.sendAttempt).length := by
        by_contra hge
        push_neg at hge
        rw [List.getElem?_append, if_neg (by omega)] at hi
        rcases hsub : i - (att.map AddEvent.sendAttempt).length with _ | k
        · rw [hsub] at hi; simp at hi
        · rw [hsub] at hi; simp at hi
      omega

theorem claim_C4_witness : (0 : Nat) < 1 :=
  claim_C4_priming_before_insert [] 3 0
    (.ok [{ head := 7, tps := 8, last_block_timestamp := 9, contract_address := "0x9" }])
    false 0 1
    (primingResponse 0
      { head := 7, tps := 8, last_block_timestamp := 9, contract_address := "0x9" })
    3 (by decide) (by decide)

/-- C5: a failing priming read makes `add_subscriber` return the store error,
with no message enqueued and the registry unchanged. -/
theorem claim_C5_store_error_no_partial_effect (reg : Registry) (id filter : Nat)
    (rd : Bool) :
    add_subscriber reg id filter (.error ()) rd =
      { outcome := .storeErr, registry := reg, events := [] } := rfl

/-- C9: with the receiving end dropped, every priming send error is discarded:
`add_subscriber` still inserts the subscriber, performs the whole effect trace,
and returns the receiver. -/
theorem claim_C9_channel_error_ignored (reg : Registry) (id filter : Nat)
    (rows : List ContractUpdated) :
    (add_subscriber reg id filter (.ok rows) true).outcome =
        .ok { closed := true, queue := [] } ∧
      (add_subscriber reg id filter (.ok rows) true).registry =
        registryInsert reg id
          { contract_address := filter, sender := { closed := true, queue := [] } } ∧
      (add_subscriber reg id filter (.ok rows) true).events =
        (rows.map (primingResponse filter)).map AddEvent.sendAttempt ++
          [AddEvent.insert id] := by
  have h := prime_loop_closed (rows.map (primingResponse filter))
    { closed := true, queue := [] } rfl
  simp only [add_subscriber, h]
  simp

/-- C10: `add_subscriber` completes whenever the priming query yields at most
one record; with two or more records and an open, undrained receiver, the
second priming send awaits capacity forever and the call never returns. -/
theorem claim_C10_termination (reg : Registry) (id filter : Nat)
    (rows : List ContractUpdated) (rd : Bool) :
    (rows.length ≤ 1 → (add_subscriber reg id filter (.ok rows) rd).outcome ≠ .blocked) ∧
      (2 ≤ rows.length → rd = false →
        (add_subscriber reg id filter (.ok rows) rd).outcome = .blocked) := by
  constructor
  · intro hlen
    rcases rows with _ | ⟨r, rest⟩
    · simp [add_subscriber, prime_loop]
    · rcases rest with _ | ⟨r2, rest2⟩
      · cases rd <;> simp [add_subscriber, prime_loop, prime_send]
      · exfalso
        simp [List.length_cons] at hlen
  · intro hlen hrd
    subst hrd
    rcases rows with _ | ⟨r1, rest⟩
    · simp at hlen
    · rcases rest with _ | ⟨r2, rest2⟩
      · simp at hlen
      · simp [add_subscriber, prime_loop, prime_send]

theorem claim_C10_witness :
    (add_subscriber [] 1 2
        (.ok [{ head := 1, tps := 1, last_block_timestamp := 1, contract_address := "0x2" }])
        false).outcome ≠ .blocked ∧
      (add_subscriber [] 1 2
        (.ok [{ head := 1, tps := 1, last_block_timestamp := 1, contract_address := "0x2" },
              { head := 2, tps := 2, last_block_timestamp := 2, contract_address := "0x2" }])
        false).outcome = .blocked :=
  ⟨(claim_C10_termination [] 1 2
      [{ head := 1, tps := 1, last_block_timestamp := 1, contract_address := "0x2" }]
      false).1 (by decide),
   (claim_C10_termination [] 1 2
      [{ head := 1, tps := 1, last_block_timestamp := 1, contract_address := "0x2" },
       { head := 2, tps := 2, last_block_timestamp := 2, contract_address := "0x2" }]
      false).2 (by decide) rfl⟩

/-- C6: when a broker event's address fails to parse, `publish_updates`
reports the parse error with nothing delivered and the registry untouched, and
the service loop continues with the remaining events unaffected. -/
theorem claim_C6_parse_failure_discards_event (reg : Registry) (u : ContractUpdated)
    (rest : List ContractUpdated) (hparse : feltFromStr u.contract_address = none) :
    publish_updates reg u = { parseFailed := true, registry := reg, delivered := [] } ∧
      servicePoll reg (u :: rest) = servicePoll reg rest := by
  have h1 : publish_updates reg u =
      { parseFailed := true, registry := reg, delivered := [] } := by
    simp only [publish_updates, hparse]
  refine ⟨h1, ?_⟩
  simp only [servicePoll, List.foldl_cons, h1]

theorem claim_C6_witness :
    publish_updates
        [(1, { contract_address := 0, sender := { closed := false, queue := [] } })]
        { head := 10, tps := 15, last_block_timestamp := 1700000000,
          contract_address := "not-hex" } =
      { parseFailed := true
        registry :=
          [(1, { contract_address := 0, sender := { closed := false, queue := [] } })]
        delivered := [] } ∧
      servicePoll
        [(1, { contract_address := 0, sender := { closed := false, queue := [] } })]
        [{ head := 10, tps := 15, last_block_timestamp := 1700000000,
           contract_address := "not-hex" }] =
      servicePoll
        [(1, { contract_address := 0, sender := { closed := false, queue := [] } })] [] :=
  claim_C6_parse_failure_discards_event
    [(1, { contract_address := 0, sender := { closed := false, queue := [] } })]
    { head := 10, tps := 15, last_block_timestamp := 1700000000,
      contract_address := "not-hex" }
    [] (by decide)

/-- C8: `remove_subscriber` deletes the binding of `id` when present, is a
no-op when the id is absent, is idempotent, and leaves every other binding
unchanged. -/
theorem claim_C8_remove_subscriber_idempotent (reg : Registry) (id : Nat) :
    (registryLookup reg id = none → remove_subscriber reg id = reg) ∧
      registryLookup (remove_subscriber reg id) id = none ∧
      remove_subscriber (remove_subscriber reg id) id = remove_subscriber reg id ∧
      (∀ j, j ≠ id → registryLookup (remove_subscriber reg id) j = registryLookup reg j) := by
  refine ⟨remove_subscriber_absent reg id, ?_, ?_, ?_⟩
  · rw [registryLookup_remove]
    simp
  · exact remove_subscriber_absent _ id (by rw [registryLookup_remove]; simp)
  · intro j hj
    rw [registryLookup_remove, if_neg hj]

theorem claim_C8_witness :
    remove_subscriber
        ([(2, { contract_address := 7, sender := { closed := false, queue := [] } })] :
          Registry) 1 =
      [(2, { contract_address := 7, sender := { closed := false, queue := [] } })] ∧
      registryLookup
        (remove_subscriber
          [(1, { contract_address := 5, sender := { closed := false, queue := [] } }),
           (2, { contract_address := 7, sender := { closed := false, queue := [] } })] 1) 1 =
        none ∧
      registryLookup
        (remove_subscriber
          [(1, { contract_address := 5, sender := { closed := false, queue := [] } }),
           (2, { contract_address := 7, sender := { closed := false, queue := [] } })] 1) 2 =
      registryLookup
        [(1, { contract_address := 5, sender := { closed := false, queue := [] } }),
         (2, { contract_address := 7, sender := { closed := false, queue := [] } })] 2 :=
  ⟨(claim_C8_remove_subscriber_idempotent
      [(2, { contract_address := 7, sender := { closed := false, queue := [] } })] 1).1
      (by decide),
   (claim_C8_remove_subscriber_idempotent
      [(1, { contract_address := 5, sender := { closed := false, queue := [] } }),
       (2, { contract_address := 7, sender := { closed := false, queue := [] } })] 1).2.1,
   (claim_C8_remove_subscriber_idempotent
      [(1, { contract_address := 5, sender := { closed := false, queue := [] } }),
       (2, { contract_address := 7, sender := { closed := false, queue := [] } })] 1).2.2.2
      2 (by decide)⟩

/-- Membership in the delivered list of one fan-out. -/
theorem publish_delivered_mem_iff (reg : Registry) (u : ContractUpdated) (c : Nat)
    (hparse : feltFromStr u.contract_address = some c) (i : Nat)
    (r : SubscribeIndexerResponse) :
    (i, r) ∈ (publish_updates reg u).delivered ↔
      ∃ p ∈ reg, (fanoutStep c u p).2.1 = some (i, r) := by
  rw [publish_updates_parse_ok reg u c hparse]
  simp only [List.mem_filterMap, List.mem_map]
  constructor
  · rintro ⟨t, ⟨p, hp, rfl⟩, ht⟩
    exact ⟨p, hp, ht⟩
  · rintro ⟨p, hp, hstep⟩
    exact ⟨fanoutStep c u p, ⟨p, hp, rfl⟩, hstep⟩

/-- Membership in the `closed_stream` list collected by one fan-out. -/
theorem publish_removed_mem_iff (reg : Registry) (u : ContractUpdated) (c : Nat) (i : Nat) :
    (i ∈ (reg.map (fanoutStep c u)).filterMap (fun t => t.2.2)) ↔
      ∃ p ∈ reg, (fanoutStep c u p).2.2 = some i := by
  simp only [List.mem_filterMap, List.mem_map]
  constructor
  · rintro ⟨t, ⟨p, hp, rfl⟩, ht⟩
    exact ⟨p, hp, ht⟩
  · rintro ⟨p, hp, hstep⟩
    exact ⟨fanoutStep c u p, ⟨p, hp, rfl⟩, hstep⟩

theorem publish_registry_lookup (reg : Registry) (u : ContractUpdated) (c : Nat)
    (hparse : feltFromStr u.contract_address = some c) (j : Nat) :
    registryLookup (publish_updates reg u).registry j =
      if j ∈ (reg.map (fanoutStep c u)).filterMap (fun t => t.2.2) then none
      else registryLookup ((reg.map (fanoutStep c u)).map (fun t => t.1)) j := by
  rw [publish_updates_parse_ok reg u c hparse]
  exact registryLookup_foldl_remove _ _ j

theorem mapped_lookup_isSome (reg : Registry) (c : Nat) (u : ContractUpdated)
    (id : Nat) (sub : IndexerSubscriber) (hmem : (id, sub) ∈ reg) :
    registryLookup ((reg.map (fanoutStep c u)).map (fun t => t.1)) id ≠ none := by
  have hm1 : (fanoutStep c u (id, sub)).1 ∈ (reg.map (fanoutStep c u)).map (fun t => t.1) :=
    List.mem_map_of_mem _ (List.mem_map_of_mem _ hmem)
  have hkey : (fanoutStep c u (id, sub)).1.1 = id := fanoutStep_key c u (id, sub)
  have hpair : ((id : Nat), (fanoutStep c u (id, sub)).1.2) = (fanoutStep c u (id, sub)).1 :=
    Prod.ext hkey.symm rfl
  refine registryLookup_isSome_of_mem _ id ((fanoutStep c u (id, sub)).1.2) ?_
  rw [hpair]
  exact hm1

/-- C1 as stated fails on the code: for the broker event with address `0x5`
(parsing to the ContractId 5), the subscriber registered under id 1 with the
wildcard filter `0` — whose channel happens to be closed — has nothing
enqueued, although the claim requires a response for every subscriber whose
filter is `ZERO` or equals the event's contract. -/
theorem claim_C1_counterexample :
    feltFromStr "0x5" = some 5 ∧
      (publish_updates
          [(1, { contract_address := 0, sender := { closed := true, queue := [] } })]
          { head := 1, tps := 2, last_block_timestamp := 3,
            contract_address := "0x5" }).delivered = [] :=
  ⟨by decide, by decide⟩

/-- C1 (amended): during fan-out of a broker event whose address parses to `c`,
a response carrying the event's head, tps, last_block_timestamp and the
32-byte big-endian encoding of `c` is enqueued to a registered subscriber
whose channel is still open if and only if the subscriber's filter is `ZERO`
or equals `c`; a subscriber with a non-wildcard filter different from `c`
receives nothing for that event. -/
theorem claim_C1_filter_sound_complete (reg : Registry) (u : ContractUpdated) (c : Nat)
    (id : Nat) (sub : IndexerSubscriber)
    (hparse : feltFromStr u.contract_address = some c)
    (hnd : (reg.map Prod.fst).Nodup)
    (hmem : (id, sub) ∈ reg)
    (hopen : sub.sender.closed = false) :
    ((id, liveResponse c u) ∈ (publish_updates reg u).delivered ↔
        (sub.contract_address = 0 ∨ sub.contract_address = c)) ∧
      (sub.contract_address ≠ 0 ∧ sub.contract_address ≠ c →
        ∀ r, (id, r) ∉ (publish_updates reg u).delivered) := by
  constructor
  · rw [publish_delivered_mem_iff reg u c hparse]
    constructor
    · rintro ⟨p, hp, hstep⟩
      have hinv := fanoutStep_delivered_inv c u p id (liveResponse c u) hstep
      have hpid : p.1 = id := hinv.1.symm
      have hps : p.2 = sub := by
        have hmem2 : (id, p.2) ∈ reg := by
          rw [← hpid]
          simpa using hp
        exact registry_key_unique reg hnd id p.2 sub hmem2 hmem
      rw [← hps]
      exact hinv.2.2.1
    · intro hm
      obtain ⟨ch, hch, hstep⟩ := fanoutStep_open_eq c u (id, sub) hm hopen
      exact ⟨(id, sub), hmem, by rw [hstep]⟩
  · intro hne r hr
    rw [publish_delivered_mem_iff reg u c hparse] at hr
    obtain ⟨p, hp, hstep⟩ := hr
    have hinv := fanoutStep_delivered_inv c u p id r hstep
    have hpid : p.1 = id := hinv.1.symm
    have hps : p.2 = sub := by
      have hmem2 : (id, p.2) ∈ reg := by
        rw [← hpid]
        simpa using hp
      exact registry_key_unique reg hnd id p.2 sub hmem2 hmem
    rcases hinv.2.2.1 with h0 | hc2
    · exact hne.1 (hps ▸ h0)
    · exact hne.2 (hps ▸ hc2)

theorem claim_C1_witness :
    ((1, liveResponse 5
          { head := 1, tps := 2, last_block_timestamp := 3, contract_address := "0x5" }) ∈
        (publish_updates
          [(1, { contract_address := 0, sender := { closed := false, queue := [] } }),
           (2, { contract_address := 7, sender := { closed := false, queue := [] } })]
          { head := 1, tps := 2, last_block_timestamp := 3,
            contract_address := "0x5" }).delivered ↔
        ((0 : Nat) = 0 ∨ (0 : Nat) = 5)) ∧
      ((0 : Nat) ≠ 0 ∧ (0 : Nat) ≠ 5 →
        ∀ r, (1, r) ∉
          (publish_updates
            [(1, { contract_address := 0, sender := { closed := false, queue := [] } }),
             (2, { contract_address := 7, sender := { closed := false, queue := [] } })]
            { head := 1, tps := 2, last_block_timestamp := 3,
              contract_address := "0x5" }).delivered) :=
  claim_C1_filter_sound_complete
    [(1, { contract_address := 0, sender := { closed := false, queue := [] } }),
     (2, { contract_address := 7, sender := { closed := false, queue := [] } })]
    { head := 1, tps := 2, last_block_timestamp := 3, contract_address := "0x5" }
    5 1 { contract_address := 0, sender := { closed := false, queue := [] } }
    (by decide) (by decide) (by decide) rfl

/-- C2: during fan-out a subscriber is recorded for removal and removed
exactly when its send observes the receiving end dropped (channel closed); a
matching subscriber whose capacity-1 channel is merely full still has the
response delivered after awaiting capacity and stays registered. -/
theorem claim_C2_eviction_iff_closed (reg : Registry) (u : ContractUpdated) (c : Nat)
    (id : Nat) (sub : IndexerSubscriber)
    (hparse : feltFromStr u.contract_address = some c)
    (hnd : (reg.map Prod.fst).Nodup)
    (hmem : (id, sub) ∈ reg) :
    (registryLookup (publish_updates reg u).registry id = none ↔
        ((sub.contract_address = 0 ∨ sub.contract_address = c) ∧
          sub.sender.closed = true)) ∧
      (sub.sender.closed = false → sub.sender.queue.length = 1 →
        (sub.contract_address = 0 ∨ sub.contract_address = c) →
        ((id, liveResponse c u) ∈ (publish_updates reg u).delivered ∧
          registryLookup (publish_updates reg u).registry id ≠ none)) := by
  have hlook := publish_registry_lookup reg u c hparse id
  have hsome := mapped_lookup_isSome reg c u id sub hmem
  have hremiff : (id ∈ (reg.map (fanoutStep c u)).filterMap (fun t => t.2.2)) ↔
      ((sub.contract_address = 0 ∨ sub.contract_address = c) ∧
        sub.sender.closed = true) := by
    rw [publish_removed_mem_iff reg u c id]
    constructor
    · rintro ⟨p, hp, hstep⟩
      have hinv := fanoutStep_removed_inv c u p id hstep
      have hpid : p.1 = id := hinv.1.symm
      have hps : p.2 = sub := by
        have hmem2 : (id, p.2) ∈ reg := by
          rw [← hpid]
          simpa using hp
        exact registry_key_unique reg hnd id p.2 sub hmem2 hmem
      exact ⟨hps ▸ hinv.2.1, hps ▸ hinv.2.2⟩
    · rintro ⟨hm2, hc2⟩
      refine ⟨(id, sub), hmem, ?_⟩
      rw [fanoutStep_closed_eq c u (id, sub) hm2 hc2]
  constructor
  · rw [hlook]
    constructor
    · intro h
      by_cases hrem : id ∈ (reg.map (fanoutStep c u)).filterMap (fun t => t.2.2)
      · exact hremiff.mp hrem
      · rw [if_neg hrem] at h
        exact absurd h hsome
    · intro hmc
      rw [if_pos (hremiff.mpr hmc)]
  · intro hopen hfull hm2
    constructor
    · rw [publish_delivered_mem_iff reg u c hparse]
      obtain ⟨ch, hch, hstep⟩ := fanoutStep_open_eq c u (id, sub) hm2 hopen
      exact ⟨(id, sub), hmem, by rw [hstep]⟩
    · rw [hlook, if_neg ?_]
      · exact hsome
      · intro hrem
        have := (hremiff.mp hrem).2
        rw [hopen] at this
        cases this

theorem claim_C2_witness :
    (1, liveResponse 5
        { head := 1, tps := 2, last_block_timestamp := 3, contract_address := "0x5" }) ∈
      (publish_updates
        [(1, { contract_address := 5,
               sender := { closed := false,
                           queue := [{ head := 0, tps := 0, last_block_timestamp := 0,
                                       contract_address := [] }] } })]
        { head := 1, tps := 2, last_block_timestamp := 3,
          contract_address := "0x5" }).delivered ∧
      registryLookup
        (publish_updates
          [(1, { contract_address := 5,
                 sender := { closed := false,
                             queue := [{ head := 0, tps := 0, last_block_timestamp := 0,
                                         contract_address := [] }] } })]
          { head := 1, tps := 2, last_block_timestamp := 3,
            contract_address := "0x5" }).registry 1 ≠ none :=
  (claim_C2_eviction_iff_closed
    [(1, { contract_address := 5,
           sender := { closed := false,
                       queue := [{ head := 0, tps := 0, last_block_timestamp := 0,
                                   contract_address := [] }] } })]
    { head := 1, tps := 2, last_block_timestamp := 3, contract_address := "0x5" }
    5 1
    { contract_address := 5,
      sender := { closed := false,
                  queue := [{ head := 0, tps := 0, last_block_timestamp := 0,
                              contract_address := [] }] } }
    (by decide) (by decide) (by decide)).2 rfl rfl (Or.inr rfl)

/-- C7: every `contract_address` byte vector placed into a response — in a
priming message of `add_subscriber` or a live fan-out message of
`publish_updates` — has length exactly 32 and is the big-endian encoding of a
ContractId. -/
theorem claim_C7_address_always_32_bytes (reg : Registry) (id filter : Nat)
    (rows : List ContractUpdated) (rd : Bool) (u : ContractUpdated) :
    (∀ m, AddEvent.sendAttempt m ∈ (add_subscriber reg id filter (.ok rows) rd).events →
        m.contract_address.length = 32 ∧ ∃ f, m.contract_address = feltToBytesBe f) ∧
      (∀ i r, (i, r) ∈ (publish_updates reg u).delivered →
        r.contract_address.length = 32 ∧ ∃ f, r.contract_address = feltToBytesBe f) := by
  constructor
  · intro m h
    have hm := add_subscriber_sendAttempt_mem reg id filter rows rd m h
    simp only [List.mem_map] at hm
    obtain ⟨row, _, rfl⟩ := hm
    exact ⟨feltToBytesBe_length filter, filter, rfl⟩
  · intro i r h
    cases hparse : feltFromStr u.contract_address with
    | none => simp [publish_updates, hparse] at h
    | some c =>
      rw [publish_delivered_mem_iff reg u c hparse] at h
      obtain ⟨p, hp, hstep⟩ := h
      have hinv := fanoutStep_delivered_inv c u p i r hstep
      rw [hinv.2.1]
      exact ⟨feltToBytesBe_length c, c, rfl⟩

theorem claim_C7_witness :
    ((primingResponse 3
          { head := 7, tps := 8, last_block_timestamp := 9,
            contract_address := "0x9" }).contract_address.length = 32 ∧
        ∃ f, (primingResponse 3
            { head := 7, tps := 8, last_block_timestamp := 9,
              contract_address := "0x9" }).contract_address = feltToBytesBe f) ∧
      ((liveResponse 5
          { head := 1, tps := 2, last_block_timestamp := 3,
            contract_address := "0x5" }).contract_address.length = 32 ∧
        ∃ f, (liveResponse 5
            { head := 1, tps := 2, last_block_timestamp := 3,
              contract_address := "0x5" }).contract_address = feltToBytesBe f) :=
  ⟨(claim_C7_address_always_32_bytes
      [(1, { contract_address := 0, sender := { closed := false, queue := [] } })]
      4 3
      [{ head := 7, tps := 8, last_block_timestamp := 9, contract_address := "0x9" }]
      false
      { head := 1, tps := 2, last_block_timestamp := 3, contract_address := "0x5" }).1
      (primingResponse 3
        { head := 7, tps := 8, last_block_timestamp := 9, contract_address := "0x9" })
      (by decide),
   (claim_C7_address_always_32_bytes
      [(1, { contract_address := 0, sender := { closed := false, queue := [] } })]
      4 3
      [{ head := 7, tps := 8, last_block_timestamp := 9, contract_address := "0x9" }]
      false
      { head := 1, tps := 2, last_block_timestamp := 3, contract_address := "0x5" }).2
      1
      (liveResponse 5
        { head := 1, tps := 2, last_block_timestamp := 3, contract_address := "0x5" })
      (by decide)⟩
